import Mathlib

/-!
Shallow embedding of the device session transport engine of
`src/stores/serial.ts` (web-micropython).

Bytes are modelled as `Nat` (values < 256 on the wire), text as lists of
Unicode code points (`List Nat`).  JavaScript's `TextEncoder` /
`TextDecoder` are modelled by `utf8Encode` / `utf8Decode`; the decoder
follows the WHATWG algorithm, substituting U+FFFD for invalid sequences.
Asynchronous polling loops (`readBytes`, `readUntil`, the raw-paste send
loop) are modelled with explicit fuel: one unit of fuel is one 10 ms poll
tick, and a `none` result for every fuel value means the loop never
finishes.  Bytes arriving from the device are an explicit schedule
`arr : List (List Nat)`: the chunk appended to the protocol buffer at each
poll tick.
-/

/-- Code points of a string literal, for readable protocol constants. -/
def strToCps (s : String) : List Nat := s.data.map Char.toNat

/-- UTF-8 encoding of one Unicode code point (as `TextEncoder` produces
for scalar values). -/
def utf8EncodeChar (c : Nat) : List Nat :=
  if c < 0x80 then [c]
  else if c < 0x800 then
    [0xC0 ||| (c >>> 6), 0x80 ||| (c &&& 0x3F)]
  else if c < 0x10000 then
    [0xE0 ||| (c >>> 12), 0x80 ||| ((c >>> 6) &&& 0x3F), 0x80 ||| (c &&& 0x3F)]
  else
    [0xF0 ||| (c >>> 18), 0x80 ||| ((c >>> 12) &&& 0x3F),
     0x80 ||| ((c >>> 6) &&& 0x3F), 0x80 ||| (c &&& 0x3F)]

/-- `TextEncoder.encode`: UTF-8 bytes of a code-point sequence. -/
def utf8Encode (s : List Nat) : List Nat := (s.map utf8EncodeChar).flatten

/-- `TextDecoder.decode`: WHATWG UTF-8 decoding with U+FFFD replacement
for invalid or truncated sequences. -/
def utf8Decode : List Nat → List Nat
  | [] => []
  | b :: rest =>
    if b < 0x80 then b :: utf8Decode rest
    else if 0xC2 ≤ b && b ≤ 0xDF then
      match rest with
      | [] => [0xFFFD]
      | c1 :: r =>
        if 0x80 ≤ c1 && c1 ≤ 0xBF then
          (((b - 0xC0) <<< 6) ||| (c1 - 0x80)) :: utf8Decode r
        else 0xFFFD :: utf8Decode (c1 :: r)
    else if 0xE0 ≤ b && b ≤ 0xEF then
      let lo1 := if b = 0xE0 then 0xA0 else 0x80
      let hi1 := if b = 0xED then 0x9F else 0xBF
      match rest with
      | [] => [0xFFFD]
      | c1 :: r =>
        if lo1 ≤ c1 && c1 ≤ hi1 then
          match r with
          | [] => [0xFFFD]
          | c2 :: r2 =>
            if 0x80 ≤ c2 && c2 ≤ 0xBF then
              (((b - 0xE0) <<< 12) ||| ((c1 - 0x80) <<< 6) ||| (c2 - 0x80)) :: utf8Decode r2
            else 0xFFFD :: utf8Decode (c2 :: r2)
        else 0xFFFD :: utf8Decode (c1 :: r)
    else if 0xF0 ≤ b && b ≤ 0xF4 then
      let lo1 := if b = 0xF0 then 0x90 else 0x80
      let hi1 := if b = 0xF4 then 0x8F else 0xBF
      match rest with
      | [] => [0xFFFD]
      | c1 :: r =>
        if lo1 ≤ c1 && c1 ≤ hi1 then
          match r with
          | [] => [0xFFFD]
          | c2 :: r2 =>
            if 0x80 ≤ c2 && c2 ≤ 0xBF then
              match r2 with
              | [] => [0xFFFD]
              | c3 :: r3 =>
                if 0x80 ≤ c3 && c3 ≤ 0xBF then
                  (((b - 0xF0) <<< 18) ||| ((c1 - 0x80) <<< 12) |||
                    ((c2 - 0x80) <<< 6) ||| (c3 - 0x80)) :: utf8Decode r3
                else 0xFFFD :: utf8Decode (c3 :: r3)
            else 0xFFFD :: utf8Decode (c2 :: r2)
        else 0xFFFD :: utf8Decode (c1 :: r)
    else 0xFFFD :: utf8Decode rest

/-- Shared mutable state of the serial store closure: `port.value` presence
(`connected`) and its `writable` stream, `busy.value`, the `sessionActive`
flag, the protocol-capture flag and buffer, and whether `sessionOnData`
holds a callback. -/
structure SerialState where
  connected : Bool
  writable : Bool
  busy : Option String
  sessionActive : Bool
  protocolBufferActive : Bool
  protocolBuffer : List Nat
  sessionOnData : Bool
deriving Repr, DecidableEq

/-- `writeRaw(text)`: if no port or no writable stream, return without
writing; otherwise write the UTF-8 encoding of `text`.  The result is the
list of write events put on the Transport (each event one byte chunk). -/
def writeRaw (st : SerialState) (text : List Nat) : List (List Nat) :=
  if st.connected && st.writable then [utf8Encode text] else []

/-- One poll tick is 10 ms, so a `timeoutMs` budget is `timeoutMs / 10`
loop iterations of fuel. -/
def ticksOf (timeoutMs : Nat) : Nat := timeoutMs / 10

/-- `readBytes(count, timeoutMs)`: poll the protocol buffer; once it holds
at least `count` bytes, remove and return exactly the first `count`;
otherwise wait one tick (during which the read router appends the next
scheduled arrival chunk) and retry; `none` on timeout.  Returns the result
together with the remaining buffer and the unconsumed arrival schedule. -/
def readBytes (count : Nat) : Nat → List Nat → List (List Nat) →
    Option (List Nat) × List Nat × List (List Nat)
  | 0, buf, arr => (none, buf, arr)
  | fuel + 1, buf, arr =>
    if count ≤ buf.length then (some (buf.take count), buf.drop count, arr)
    else
      match arr with
      | [] => readBytes count fuel buf []
      | a :: rest => readBytes count fuel (buf ++ a) rest

/-- First index at which `needle` occurs as a contiguous sublist of the
haystack (JavaScript `String.indexOf` over code points). -/
def findSubIdx (needle : List Nat) : List Nat → Option Nat
  | [] => if needle.isEmpty then some 0 else none
  | h :: t =>
    if needle.isPrefixOf (h :: t) then some 0
    else (findSubIdx needle t).map (· + 1)

/-- `text.includes(marker)`. -/
def containsSub (needle hay : List Nat) : Bool := (findSubIdx needle hay).isSome

/-- The body of one `readUntil` poll iteration: decode the current buffer,
search for the marker; on a hit return the text through the end of the
marker and the buffer with the UTF-8 byte length of that text removed. -/
def readUntilStep (marker buf : List Nat) : Option (List Nat × List Nat) :=
  let text := utf8Decode buf
  match findSubIdx marker text with
  | none => none
  | some idx =>
    let result := text.take (idx + marker.length)
    let consumed := (utf8Encode result).length
    some (result, buf.drop consumed)

/-- `readUntil(marker, timeoutMs)`: poll `readUntilStep` once per tick,
appending the scheduled arrival chunk on a miss; `none` on timeout. -/
def readUntil (marker : List Nat) : Nat → List Nat → List (List Nat) →
    Option (List Nat) × List Nat × List (List Nat)
  | 0, buf, arr => (none, buf, arr)
  | fuel + 1, buf, arr =>
    match readUntilStep marker buf with
    | some (res, buf2) => (some res, buf2, arr)
    | none =>
      match arr with
      | [] => readUntil marker fuel buf []
      | a :: rest => readUntil marker fuel (buf ++ a) rest

/-- `getConsoleShell().send(text)`: dropped while a session is active,
otherwise `writeRaw`. -/
def consoleSend (st : SerialState) (text : List Nat) : List (List Nat) :=
  if st.sessionActive then [] else writeRaw st text

/-- Errors thrown by the session layer (`throw new Error(...)` sites). -/
inductive SerialError
  | notConnected
  | sessionAlreadyActive
  | failedToEnterRawRepl
deriving Repr, DecidableEq

/-- Negotiated session capability held by the `openSession` closure. -/
structure Session where
  useRawPaste : Bool
  windowSize : Nat
deriving Repr, DecidableEq

/-- The marker `'>'` awaited by the negotiator. -/
def promptMarker : List Nat := strToCps ">"

/-- The substring checked inside the raw-REPL entry prompt. -/
def rawReplMarker : List Nat := strToCps "raw REPL"

/-- Steps 2-5 of `openSession`: after `writeRaw('\x05A\x01')`, read the
2-byte probe response and classify it, threading the protocol buffer and
the arrival schedule.  Yields `(useRawPaste, windowSize)` — both default
`false` / `0` when no branch assigns them — plus the remaining buffer and
schedule. -/
def probeRawPaste (buf : List Nat) (arr : List (List Nat)) :
    (Bool × Nat) × List Nat × List (List Nat) :=
  match readBytes 2 (ticksOf 1000) buf arr with
  | (none, buf1, arr1) => ((false, 0), buf1, arr1)
  | (some resp, buf1, arr1) =>
    let r0 := resp.headD 0
    let r1 := (resp.drop 1).headD 0
    if r0 = 0x52 && r1 = 0x01 then
      match readBytes 2 (ticksOf 1000) buf1 arr1 with
      | (none, buf2, arr2) => ((true, 0), buf2, arr2)
      | (some wb, buf2, arr2) =>
        let ws := wb.headD 0 ||| ((wb.drop 1).headD 0 <<< 8)
        let after := readBytes 1 (ticksOf 1000) buf2 arr2
        ((true, ws), after.2.1, after.2.2)
    else if r0 = 0x52 && r1 = 0x00 then ((false, 0), buf1, arr1)
    else if r0 = 0x72 && r1 = 0x61 then
      let after := readUntil promptMarker (ticksOf 1000) buf1 arr1
      ((false, 0), after.2.1, after.2.2)
    else ((false, 0), buf1, arr1)

/-- `openSession(reason)` up to returning the session object: guards, then
busy/active/capture setup, `writeRaw('\x01')`, `readUntil('>', 2000)` with
the `raw REPL` check, the raw-paste probe, and the catch block that rolls
the flags back on a handshake failure.  Returns the thrown error or the
negotiated `Session`, the resulting shared state, and the Transport write
trace. -/
def openSession (reason : String) (st : SerialState) (arr : List (List Nat)) :
    Except SerialError Session × SerialState × List (List Nat) :=
  if !st.connected then (.error .notConnected, st, [])
  else if st.sessionActive then (.error .sessionAlreadyActive, st, [])
  else
    let st1 : SerialState :=
      { st with busy := some reason, sessionActive := true,
                protocolBufferActive := true, protocolBuffer := [] }
    let w1 := writeRaw st1 (strToCps "\x01")
    match readUntil promptMarker (ticksOf 2000) st1.protocolBuffer arr with
    | (none, buf2, _) =>
      (.error .failedToEnterRawRepl,
       { st1 with protocolBufferActive := false, sessionActive := false,
                  busy := none, protocolBuffer := buf2 }, w1)
    | (some rawPrompt, buf2, arr2) =>
      if !containsSub rawReplMarker rawPrompt then
        (.error .failedToEnterRawRepl,
         { st1 with protocolBufferActive := false, sessionActive := false,
                    busy := none, protocolBuffer := buf2 }, w1)
      else
        let w2 := writeRaw st1 (strToCps "\x05A\x01")
        let probed := probeRawPaste buf2 arr2
        (.ok ⟨probed.1.1, probed.1.2⟩,
         { st1 with protocolBufferActive := false, protocolBuffer := probed.2.1 },
         w1 ++ w2)

/-- The `while (offset < data.length)` loop of the raw-paste `send`:
writes `data.slice(offset, offset + remaining)` re-decoded as text through
`writeRaw`, then on an exhausted window consults the next flow-control
byte (`flow i`, `none` modelling a 5000 ms timeout): `0x01` refills the
window, `0x04` breaks out, anything else leaves `remaining` at `0`.
`none` overall means the loop did not finish within `fuel` iterations. -/
def sendLoop (st : SerialState) (windowSize : Nat) (data : List Nat)
    (flow : Nat → Option Nat) :
    Nat → Nat → Nat → Nat → Option (List (List Nat))
  | 0, _, _, _ => none
  | fuel + 1, offset, remaining, flowIdx =>
    if offset < data.length then
      let chunk := (data.drop offset).take remaining
      let wr := writeRaw st (utf8Decode chunk)
      let offset2 := offset + chunk.length
      let remaining2 := remaining - chunk.length
      if remaining2 = 0 && decide (offset2 < data.length) then
        match flow flowIdx with
        | some 1 =>
          (sendLoop st windowSize data flow fuel offset2 windowSize (flowIdx + 1)).map
            (wr ++ ·)
        | some 4 => some wr
        | _ =>
          (sendLoop st windowSize data flow fuel offset2 remaining2 (flowIdx + 1)).map
            (wr ++ ·)
      else
        (sendLoop st windowSize data flow fuel offset2 remaining2 flowIdx).map
          (wr ++ ·)
    else some []

/-- `session.send(text)`: raw-paste mode runs the flow-controlled loop and
then writes the end-of-data byte `0x04` (the trailing 1-byte ack read does
not touch the Transport write path); plain raw mode writes the text and
then `0x04`.  The result is the Transport write trace, or `none` when the
raw-paste loop never finishes. -/
def sessionSend (st : SerialState) (useRawPaste : Bool) (windowSize : Nat)
    (text : List Nat) (fuel : Nat) (flow : Nat → Option Nat) :
    Option (List (List Nat)) :=
  if useRawPaste then
    let data := utf8Encode text
    (sendLoop st windowSize data flow fuel 0 windowSize 0).map
      (· ++ writeRaw st (strToCps "\x04"))
  else
    some (writeRaw st text ++ writeRaw st (strToCps "\x04"))

/-- `session.close()`: flip `sessionActive` off, write the exit-raw byte
`0x02` (which may throw, modelled by `writeFails`), and in the `finally`
block clear the session callback, busy status, protocol buffer and
capture flag regardless; the write failure is then re-raised. -/
def closeSession (st : SerialState) (writeFails : Bool) :
    Except Unit Unit × SerialState × List (List Nat) :=
  let st1 : SerialState := { st with sessionActive := false }
  let w := if writeFails then [] else writeRaw st1 (strToCps "\x02")
  let st2 : SerialState :=
    { st1 with sessionOnData := false, busy := none,
               protocolBuffer := [], protocolBufferActive := false }
  ((if writeFails then .error () else .ok ()), st2, w)

/-- `connect()`: request and open the port, set signals, then the wake
sequence `0x03`, `0x04`, `"\r\n"`.  The awaited steps are numbered 0-5;
`failAt = some k` makes step `k` throw.  The catch block only logs the
error and sets `port.value = null`; it does not rethrow, so the result is
always `.ok`.  The third component records whether an error was caught
(and logged). -/
def connect (failAt : Option Nat) (st : SerialState) :
    Except SerialError SerialState × List (List Nat) × Bool :=
  let stFail : SerialState := { st with connected := false, writable := false }
  let stOk : SerialState := { st with connected := true, writable := true }
  match failAt with
  | some 0 => (.ok stFail, [], true)
  | some 1 => (.ok stFail, [], true)
  | some 2 => (.ok stFail, [], true)
  | some 3 => (.ok stFail, [], true)
  | some 4 => (.ok stFail, [utf8Encode (strToCps "\x03")], true)
  | some 5 =>
    (.ok stFail, [utf8Encode (strToCps "\x03"), utf8Encode (strToCps "\x04")], true)
  | _ =>
    (.ok stOk,
     [utf8Encode (strToCps "\x03"), utf8Encode (strToCps "\x04"),
      utf8Encode (strToCps "\r\n")], false)

/-- A connected idle store: port present and writable, no busy status, no
session, capture off, empty buffer, no session callback. -/
def stIdle : SerialState := ⟨true, true, none, false, false, [], false⟩

/-- A store in the middle of an active session. -/
def stActive : SerialState := ⟨true, true, some "run", true, false, [], true⟩

/-- A store with no port at all. -/
def stDisconnected : SerialState := ⟨false, false, none, false, false, [], false⟩

/-- The raw-REPL entry banner a MicroPython device prints, ending in the
awaited `'>'`. -/
def promptChunk : List Nat := utf8Encode (strToCps "raw REPL; CTRL-B to exit\r\n>")

theorem utf8EncodeChar_ascii {c : Nat} (h : c < 128) : utf8EncodeChar c = [c] := by
  simp [utf8EncodeChar, h]

theorem utf8Encode_ascii {s : List Nat} (h : ∀ b ∈ s, b < 128) : utf8Encode s = s := by
  induction s with
  | nil => rfl
  | cons x xs ih =>
    have hx : x < 128 := h x (by simp)
    have hxs : ∀ b ∈ xs, b < 128 := fun b hb => h b (by simp [hb])
    simp [utf8Encode] at ih ⊢
    rw [utf8EncodeChar_ascii hx]
    simp [ih hxs]

theorem utf8Encode_append (a b : List Nat) :
    utf8Encode (a ++ b) = utf8Encode a ++ utf8Encode b := by
  simp [utf8Encode]

theorem utf8Decode_cons_ascii {x : Nat} (rest : List Nat) (hx : x < 128) :
    utf8Decode (x :: rest) = x :: utf8Decode rest := by
  rw [utf8Decode.eq_def]
  simp [hx]

theorem utf8Decode_ascii_append {a : List Nat} (t : List Nat)
    (h : ∀ b ∈ a, b < 128) : utf8Decode (a ++ t) = a ++ utf8Decode t := by
  induction a with
  | nil => rfl
  | cons x xs ih =>
    have hx : x < 128 := h x (by simp)
    have hxs : ∀ b ∈ xs, b < 128 := fun b hb => h b (by simp [hb])
    rw [List.cons_append, utf8Decode_cons_ascii _ hx, ih hxs, List.cons_append]

theorem utf8Decode_ascii {a : List Nat} (h : ∀ b ∈ a, b < 128) :
    utf8Decode a = a := by
  have h0 : utf8Decode ([] : List Nat) = [] := rfl
  have := utf8Decode_ascii_append (a := a) [] h
  rw [List.append_nil] at this
  rw [this, h0, List.append_nil]

theorem readBytes_full (count fuel : Nat) (buf : List Nat) (arr : List (List Nat))
    (h : count ≤ buf.length) (hf : fuel ≠ 0) :
    readBytes count fuel buf arr = (some (buf.take count), buf.drop count, arr) := by
  cases fuel with
  | zero => exact absurd rfl hf
  | succ f => simp [readBytes, h]

theorem readUntil_hit (marker : List Nat) (fuel : Nat) (buf : List Nat)
    (arr : List (List Nat)) (res buf2 : List Nat)
    (h : readUntilStep marker buf = some (res, buf2)) (hf : fuel ≠ 0) :
    readUntil marker fuel buf arr = (some res, buf2, arr) := by
  cases fuel with
  | zero => exact absurd rfl hf
  | succ f => simp [readUntil, h]

/-- C4: `openSession` with no Connection throws NotConnected; called while
a session is already active it throws SessionAlreadyActive.  In both cases
the shared state is returned untouched (busy status, routing flags and the
byte accumulator unchanged, so the live first session keeps working) and
nothing is written to the Transport. -/
theorem openSession_guards (reason : String) (st : SerialState)
    (arr : List (List Nat)) :
    (st.connected = false →
      openSession reason st arr = (.error .notConnected, st, []))
    ∧ (st.connected = true → st.sessionActive = true →
      openSession reason st arr = (.error .sessionAlreadyActive, st, [])) := by
  constructor
  · intro h
    simp [openSession, h]
  · intro h1 h2
    simp [openSession, h1, h2]

theorem openSession_guards_witness :
    openSession "run" stDisconnected [] = (.error .notConnected, stDisconnected, [])
    ∧ openSession "upload" stActive [] =
        (.error .sessionAlreadyActive, stActive, []) :=
  ⟨(openSession_guards "run" stDisconnected []).1 rfl,
   (openSession_guards "upload" stActive []).2 rfl rfl⟩

set_option maxHeartbeats 4000000 in
/-- C9: when the device acknowledges raw paste with `[0x52, 0x01]` but the
two window-size bytes never arrive, `openSession` still returns an active
session with `useRawPaste = true` and `windowSize = 0` instead of failing:
the write trace is the enter-raw byte and the probe, and the state shows
the session active with capture mode off. -/
theorem openSession_windowTimeout_active (reason : String) (st : SerialState)
    (h1 : st.connected = true) (h2 : st.writable = true)
    (h3 : st.sessionActive = false) :
    openSession reason st [promptChunk, [0x52, 0x01]] =
      (.ok ⟨true, 0⟩,
       { st with busy := some reason, sessionActive := true,
                 protocolBufferActive := false, protocolBuffer := [] },
       [[1], [5, 65, 1]]) := by
  obtain ⟨c, w, b, sa, pba, pb, sod⟩ := st
  simp only at h1 h2 h3
  subst h1; subst h2; subst h3
  rfl

theorem openSession_windowTimeout_active_witness :
    openSession "run" stIdle [promptChunk, [0x52, 0x01]] =
      (.ok ⟨true, 0⟩,
       { stIdle with busy := some "run", sessionActive := true,
                     protocolBufferActive := false, protocolBuffer := [] },
       [[1], [5, 65, 1]]) :=
  openSession_windowTimeout_active "run" stIdle rfl rfl rfl

/-- C10: with no port or no writable stream, every write-based operation of
this layer is a silent no-op that still succeeds: `writeRaw` returns
without writing, console `send` writes nothing, and a plain-raw-mode
`session.send` resolves with an empty write trace — no error value
exists on this path. -/
theorem writePath_noConnection (st : SerialState) (text : List Nat)
    (W fuel : Nat) (flow : Nat → Option Nat)
    (h : (st.connected && st.writable) = false) :
    writeRaw st text = [] ∧ consoleSend st text = []
    ∧ sessionSend st false W text fuel flow = some [] := by
  have hw : ∀ t, writeRaw st t = [] := fun t => by simp [writeRaw, h]
  refine ⟨hw text, ?_, ?_⟩
  · simp [consoleSend, hw]
  · simp [sessionSend, hw]

theorem writePath_noConnection_witness :
    writeRaw stDisconnected [104, 105] = []
    ∧ consoleSend stDisconnected [104, 105] = []
    ∧ sessionSend stDisconnected false 4 [104, 105] 5 (fun _ => none) = some [] :=
  writePath_noConnection stDisconnected [104, 105] 4 5 (fun _ => none) rfl

/-- C8 counterexample: when the port request (awaited step 0) throws,
`connect` catches the error, merely logs it (third component `true`) and
nulls the port; the returned result is `.ok`, so the error is not
surfaced to the caller. -/
theorem connect_swallows_error_cex :
    connect (some 0) stDisconnected = (.ok stDisconnected, [], true) := rfl

/-- C8 (amended): failure at any awaited step of `connect` leaves the
Connection unset (port handle null, so no partial Connection is retained)
and the error is caught and logged — `connect` resolves normally rather
than rethrowing; wake-sequence writes before the failing step remain on
the Transport. -/
theorem connect_failure_clears_port (st : SerialState) (k : Nat) (hk : k ≤ 5) :
    connect (some k) st =
      (.ok { st with connected := false, writable := false },
       [utf8Encode (strToCps "\x03"), utf8Encode (strToCps "\x04")].take (k - 3),
       true) := by
  interval_cases k <;> rfl

theorem connect_failure_clears_port_witness :
    connect (some 4) stIdle =
      (.ok { stIdle with connected := false, writable := false },
       [utf8Encode (strToCps "\x03"), utf8Encode (strToCps "\x04")].take (4 - 3),
       true) :=
  connect_failure_clears_port stIdle 4 (by decide)

/-- C7 counterexample: the buffer `[0xFF, 0x3E, 0x41]` (an invalid byte,
the `'>'` marker, then one more byte) matches the marker, but the matched
text re-encodes the U+FFFD replacement as 3 bytes, so 4 bytes are
consumed out of a 3-byte buffer: the trailing byte `0x41` that follows
the marker is destroyed instead of left intact. -/
theorem readUntil_overconsumes_cex :
    readUntilStep promptMarker [0xFF, 0x3E, 0x41] = some ([0xFFFD, 0x3E], [])
    ∧ ([] : List Nat) ≠ [0x41] := ⟨rfl, by decide⟩

/-- C3: every error path restores shared state before propagating.  If
`openSession` fails the raw-REPL handshake (the only throw after its
guards), the returned state has BusyStatus null, the session-active flag
cleared and protocol capture disabled, and the error is passed on; and
`session.close()` clears BusyStatus, the session callback, the byte
accumulator and capture mode even when the exit-raw write throws (the
`finally` block), re-raising the write failure.  No such error path ends
in capture mode or with a busy status. -/
theorem errorPaths_restore_state :
    (∀ reason st arr res st2 w, openSession reason st arr = (res, st2, w) →
      res = .error .failedToEnterRawRepl →
      st2.busy = none ∧ st2.sessionActive = false
        ∧ st2.protocolBufferActive = false)
    ∧ (∀ st writeFails,
      (closeSession st writeFails).2.1.busy = none
      ∧ (closeSession st writeFails).2.1.sessionOnData = false
      ∧ (closeSession st writeFails).2.1.protocolBuffer = []
      ∧ (closeSession st writeFails).2.1.protocolBufferActive = false
      ∧ (closeSession st writeFails).2.1.sessionActive = false
      ∧ (writeFails = true → (closeSession st writeFails).1 = .error ())) := by
  constructor
  · intro reason st arr res st2 w h herr
    unfold openSession at h
    split at h
    · simp only [Prod.mk.injEq] at h
      obtain ⟨h1, h2, h3⟩ := h
      subst h1
      injection herr with h4
      exact SerialError.noConfusion h4
    · split at h
      · simp only [Prod.mk.injEq] at h
        obtain ⟨h1, h2, h3⟩ := h
        subst h1
        injection herr with h4
        exact SerialError.noConfusion h4
      · dsimp only at h
        split at h
        · simp only [Prod.mk.injEq] at h
          obtain ⟨h1, h2, h3⟩ := h
          subst h2
          exact ⟨rfl, rfl, rfl⟩
        · split at h
          · simp only [Prod.mk.injEq] at h
            obtain ⟨h1, h2, h3⟩ := h
            subst h2
            exact ⟨rfl, rfl, rfl⟩
          · simp only [Prod.mk.injEq] at h
            obtain ⟨h1, h2, h3⟩ := h
            subst h1
            exact Except.noConfusion herr
  · intro st writeFails
    refine ⟨rfl, rfl, rfl, rfl, rfl, fun hw => ?_⟩
    subst hw
    rfl

set_option maxHeartbeats 1000000 in
theorem errorPaths_restore_state_witness :
    ((openSession "x" stIdle []).2.1.busy = none
      ∧ (openSession "x" stIdle []).2.1.sessionActive = false
      ∧ (openSession "x" stIdle []).2.1.protocolBufferActive = false)
    ∧ ((closeSession stActive true).2.1.busy = none
      ∧ (closeSession stActive true).2.1.sessionOnData = false
      ∧ (closeSession stActive true).2.1.protocolBuffer = []
      ∧ (closeSession stActive true).2.1.protocolBufferActive = false
      ∧ (closeSession stActive true).2.1.sessionActive = false
      ∧ (true = true → (closeSession stActive true).1 = .error ())) :=
  ⟨errorPaths_restore_state.1 "x" stIdle [] (openSession "x" stIdle []).1
      (openSession "x" stIdle []).2.1 (openSession "x" stIdle []).2.2 rfl rfl,
   errorPaths_restore_state.2 stActive true⟩
theorem readBytes_timeout (count : Nat) :
    ∀ fuel buf arr,
      (∀ k, k ≤ fuel → buf.length + ((arr.take k).flatten).length < count) →
      readBytes count fuel buf arr =
        (none, buf ++ (arr.take fuel).flatten, arr.drop fuel) := by
  intro fuel
  induction fuel with
  | zero => intro buf arr h; simp [readBytes]
  | succ f ih =>
    intro buf arr h
    have h0 := h 0 (by omega)
    simp only [List.take_zero, List.flatten_nil, List.length_nil, Nat.add_zero] at h0
    have hlt : ¬ count ≤ buf.length := by omega
    cases arr with
    | nil =>
      have := ih buf [] (fun k hk => by
        have := h k (by omega)
        simpa using this)
      simp [readBytes, hlt, this]
    | cons a rest =>
      have := ih (buf ++ a) rest (fun k hk => by
        have := h (k + 1) (by omega)
        simp only [List.take_succ_cons, List.flatten_cons, List.length_append] at this ⊢
        omega)
      simp [readBytes, hlt, this, List.take_succ_cons, List.flatten_cons,
        List.drop_succ_cons, List.append_assoc]

/-- C6: behaviour of `take(n, timeoutMs)` (`readBytes`).  First: when the
buffer plus everything that arrives during the whole window stays below
`n` bytes, the call returns a timeout (`none`, no exception, no partial
bytes) and consumes nothing — the final buffer is the old contents plus
the arrivals, in order.  Second: once at least `n` bytes are queued it
removes and returns exactly the first `n`, preserving the remainder and
the arrival schedule.  Third: a subsequent call then returns the next
bytes in original arrival order — the two results concatenate to the
first `n + m` bytes of the queue. -/
theorem readBytes_spec :
    (∀ count fuel buf arr,
      (∀ k, k ≤ fuel → buf.length + ((arr.take k).flatten).length < count) →
      readBytes count fuel buf arr =
        (none, buf ++ (arr.take fuel).flatten, arr.drop fuel))
    ∧ (∀ count fuel buf arr, count ≤ buf.length → fuel ≠ 0 →
      readBytes count fuel buf arr = (some (buf.take count), buf.drop count, arr))
    ∧ (∀ c1 c2 f1 f2 buf arr, c1 + c2 ≤ buf.length → f1 ≠ 0 → f2 ≠ 0 →
      readBytes c1 f1 buf arr = (some (buf.take c1), buf.drop c1, arr)
      ∧ readBytes c2 f2 (buf.drop c1) arr =
          (some ((buf.drop c1).take c2), (buf.drop c1).drop c2, arr)
      ∧ buf.take c1 ++ (buf.drop c1).take c2 = buf.take (c1 + c2)) := by
  refine ⟨fun count fuel buf arr h => readBytes_timeout count fuel buf arr h,
    fun count fuel buf arr h hf => readBytes_full count fuel buf arr h hf,
    fun c1 c2 f1 f2 buf arr h h1 h2 => ?_⟩
  refine ⟨readBytes_full c1 f1 buf arr (by omega) h1,
    readBytes_full c2 f2 (buf.drop c1) arr (by simp; omega) h2,
    (List.take_add buf c1 c2).symm⟩

theorem readBytes_spec_witness :
    readBytes 5 3 [] [[1], [2], [3]] = (none, [1, 2, 3], [])
    ∧ (readBytes 2 1 [7, 8, 9] [] = (some [7, 8], [9], [])
      ∧ readBytes 1 1 [9] [] = (some [9], [], [])
      ∧ [7, 8] ++ [9] = [7, 8, 9].take 3) :=
  ⟨readBytes_spec.1 5 3 [] [[1], [2], [3]] (by decide),
   ⟨(readBytes_spec.2.2 2 1 1 1 [7, 8, 9] [] (by decide) (by decide) (by decide)).1,
    (readBytes_spec.2.2 2 1 1 1 [7, 8, 9] [] (by decide) (by decide) (by decide)).2.1,
    (readBytes_spec.2.2 2 1 1 1 [7, 8, 9] [] (by decide) (by decide) (by decide)).2.2⟩⟩
theorem readUntil_no_match (marker buf : List Nat)
    (h : findSubIdx marker (utf8Decode buf) = none) :
    ∀ fuel, readUntil marker fuel buf [] = (none, buf, []) := by
  have hstep : readUntilStep marker buf = none := by
    simp [readUntilStep, h]
  intro fuel
  induction fuel with
  | zero => rfl
  | succ f ih => simp [readUntil, hstep, ih]

/-- C7: behaviour of `takeUntil(marker, timeoutMs)` (`readUntil`) on
buffers whose contents decode losslessly (re-encoding the decoded text
gives the buffer back, e.g. any valid UTF-8 content).  On a match it
returns the decoded text through the end of the marker and consumes
exactly the bytes of that matched text — the buffer splits into the
matched text's encoding followed by the untouched remainder; with no
match it times out with the accumulator unchanged. -/
theorem readUntil_valid_utf8 (marker buf : List Nat)
    (hval : utf8Encode (utf8Decode buf) = buf) :
    (∀ idx, findSubIdx marker (utf8Decode buf) = some idx →
      readUntilStep marker buf =
        some ((utf8Decode buf).take (idx + marker.length),
              utf8Encode ((utf8Decode buf).drop (idx + marker.length)))
      ∧ buf = utf8Encode ((utf8Decode buf).take (idx + marker.length))
              ++ utf8Encode ((utf8Decode buf).drop (idx + marker.length)))
    ∧ (findSubIdx marker (utf8Decode buf) = none →
        ∀ fuel, readUntil marker fuel buf [] = (none, buf, [])) := by
  constructor
  · intro idx h
    have hsplit : utf8Decode buf =
        (utf8Decode buf).take (idx + marker.length)
          ++ (utf8Decode buf).drop (idx + marker.length) :=
      (List.take_append_drop _ _).symm
    have hbuf : buf =
        utf8Encode ((utf8Decode buf).take (idx + marker.length))
          ++ utf8Encode ((utf8Decode buf).drop (idx + marker.length)) := by
      conv_lhs => rw [← hval, hsplit]
      exact utf8Encode_append _ _
    have hdrop := congrArg
      (fun l => List.drop
        (utf8Encode ((utf8Decode buf).take (idx + marker.length))).length l) hbuf
    simp only [List.drop_left] at hdrop
    refine ⟨?_, hbuf⟩
    simp only [readUntilStep, h]
    rw [hdrop]
  · exact readUntil_no_match marker buf

theorem readUntil_valid_utf8_witness :
    readUntilStep promptMarker [79, 75, 62, 65] = some ([79, 75, 62], [65])
    ∧ ([79, 75, 62, 65] : List Nat) = utf8Encode [79, 75, 62] ++ utf8Encode [65] := by
  have h := (readUntil_valid_utf8 promptMarker [79, 75, 62, 65] (by decide)).1 2 rfl
  exact ⟨h.1, h.2⟩
theorem findSubIdx_marker_after (p t : List Nat) (hnp : 62 ∉ p) :
    findSubIdx [62] (p ++ 62 :: t) = some p.length := by
  induction p with
  | nil => simp [findSubIdx, List.isPrefixOf]
  | cons x xs ih =>
    have hx : ¬ (62 = x) := fun h => hnp (by simp [h.symm])
    have hxs : 62 ∉ xs := fun h => hnp (by simp [h])
    simp [findSubIdx, List.isPrefixOf, hx, ih hxs]

/-- C5: classification of the 2-byte probe response.  `[0x52, 0x01]`
yields raw-paste support with the window size composed little-endian from
the two following bytes and one flow-control byte consumed; `[0x52, 0x00]`
yields no raw paste; `[0x72, 0x61]` (start of a legacy `raw REPL` banner)
yields no raw paste after consuming the rest of the prompt through `'>'`;
any other byte pair, and a probe timeout, also yield no raw paste, without
an error. -/
theorem probeRawPaste_spec :
    (∀ w0 w1 fb : Nat, ∀ rest : List Nat,
      probeRawPaste (0x52 :: 0x01 :: w0 :: w1 :: fb :: rest) [] =
        ((true, w0 ||| (w1 <<< 8)), rest, []))
    ∧ (∀ rest : List Nat,
      probeRawPaste (0x52 :: 0x00 :: rest) [] = ((false, 0), rest, []))
    ∧ (∀ p q : List Nat, (∀ b ∈ p, b < 128) → 62 ∉ p →
      probeRawPaste (0x72 :: 0x61 :: (p ++ 62 :: q)) [] = ((false, 0), q, []))
    ∧ (∀ b0 b1 : Nat, ∀ rest : List Nat,
      (decide (b0 = 0x52) && decide (b1 = 0x01)) = false →
      (decide (b0 = 0x52) && decide (b1 = 0x00)) = false →
      (decide (b0 = 0x72) && decide (b1 = 0x61)) = false →
      probeRawPaste (b0 :: b1 :: rest) [] = ((false, 0), rest, []))
    ∧ probeRawPaste [] [] = ((false, 0), [], []) := by
  refine ⟨?_, ?_, ?_, ?_, by rfl⟩
  · intro w0 w1 fb rest
    have hA := (readBytes_full 2 (ticksOf 1000)
      (0x52 :: 0x01 :: w0 :: w1 :: fb :: rest) [] (by simp) (by decide)).trans rfl
    have hB := (readBytes_full 2 (ticksOf 1000)
      (w0 :: w1 :: fb :: rest) [] (by simp) (by decide)).trans
        (rfl : _ = (some [w0, w1], fb :: rest, []))
    have hC := (readBytes_full 1 (ticksOf 1000)
      (fb :: rest) [] (by simp) (by decide)).trans
        (rfl : _ = (some [fb], rest, []))
    simp [probeRawPaste, hA, hB, hC]
  · intro rest
    have hA := (readBytes_full 2 (ticksOf 1000)
      (0x52 :: 0x00 :: rest) [] (by simp) (by decide)).trans rfl
    simp [probeRawPaste, hA]
  · intro p q hp hnp
    have hA := (readBytes_full 2 (ticksOf 1000)
      (0x72 :: 0x61 :: (p ++ 62 :: q)) [] (by simp) (by decide)).trans
        (rfl : _ = (some [0x72, 0x61], p ++ 62 :: q, []))
    have hdec : utf8Decode (p ++ 62 :: q) = p ++ 62 :: utf8Decode q := by
      have h1 : p ++ 62 :: q = (p ++ [62]) ++ q := by simp
      have h2 : ∀ b ∈ p ++ [62], b < 128 := by
        intro b hb
        rcases List.mem_append.mp hb with h | h
        · exact hp b h
        · simp at h; omega
      rw [h1, utf8Decode_ascii_append q h2]
      simp
    have hidx : findSubIdx promptMarker (utf8Decode (p ++ 62 :: q)) = some p.length := by
      rw [hdec]
      exact findSubIdx_marker_after p (utf8Decode q) hnp
    have henc : utf8Encode (p ++ [62]) = p ++ [62] := by
      apply utf8Encode_ascii
      intro b hb
      rcases List.mem_append.mp hb with h | h
      · exact hp b h
      · simp at h; omega
    have hidx2 : findSubIdx promptMarker (p ++ 62 :: utf8Decode q) = some p.length := by
      have hpm : promptMarker = [62] := rfl
      rw [hpm]
      exact findSubIdx_marker_after p (utf8Decode q) hnp
    have hstep : readUntilStep promptMarker (p ++ 62 :: q) = some (p ++ [62], q) := by
      simp only [readUntilStep, hdec, hidx2]
      rw [show promptMarker.length = 1 from rfl]
      have htake : (p ++ 62 :: utf8Decode q).take (p.length + 1) = p ++ [62] := by
        rw [List.take_append 1]
        rfl
      rw [htake, henc]
      have hdrop : (p ++ 62 :: q).drop (p ++ [62]).length = q := by
        have hlen : (p ++ [62]).length = p.length + 1 := by simp
        rw [hlen, List.drop_append 1]
        rfl
      rw [hdrop]
    have hRU := readUntil_hit promptMarker (ticksOf 1000) (p ++ 62 :: q) []
      (p ++ [62]) q hstep (by decide)
    simp [probeRawPaste, hA, hRU]
  · intro b0 b1 rest h1 h2 h3
    have hA := (readBytes_full 2 (ticksOf 1000)
      (b0 :: b1 :: rest) [] (by simp) (by decide)).trans
        (rfl : _ = (some [b0, b1], rest, []))
    simp [probeRawPaste, hA, h1, h2, h3]

theorem probeRawPaste_spec_witness :
    probeRawPaste [0x52, 0x01, 0x40, 0x00, 0x01, 9] [] = ((true, 64), [9], [])
    ∧ probeRawPaste [0x52, 0x00, 8] [] = ((false, 0), [8], [])
    ∧ probeRawPaste (0x72 :: 0x61 :: ([119] ++ 62 :: [5, 200])) [] =
        ((false, 0), [5, 200], [])
    ∧ probeRawPaste [9, 9, 7] [] = ((false, 0), [7], []) :=
  ⟨(probeRawPaste_spec.1 0x40 0x00 0x01 [9]).trans (by norm_num),
   probeRawPaste_spec.2.1 [8],
   probeRawPaste_spec.2.2.1 [119] [5, 200] (by decide) (by decide),
   probeRawPaste_spec.2.2.2.1 9 9 [7] (by decide) (by decide) (by decide)⟩
theorem utf8EncodeChar_length_pos (c : Nat) : 0 < (utf8EncodeChar c).length := by
  simp only [utf8EncodeChar]
  split <;> try simp
  split <;> try simp
  split <;> simp

theorem utf8Encode_ne_nil (c : Nat) (cs : List Nat) : utf8Encode (c :: cs) ≠ [] := by
  have h := utf8EncodeChar_length_pos c
  have : utf8Encode (c :: cs) = utf8EncodeChar c ++ utf8Encode cs := by
    simp [utf8Encode]
  rw [this]
  intro hcontra
  rcases List.append_eq_nil.mp hcontra with ⟨h1, h2⟩
  rw [h1] at h
  simp at h

theorem sendLoop_window0 (st : SerialState) (data : List Nat)
    (flow : Nat → Option Nat) (hd : data ≠ []) (hflow : ∀ i, flow i = some 1) :
    ∀ fuel flowIdx, sendLoop st 0 data flow fuel 0 0 flowIdx = none := by
  intro fuel
  induction fuel with
  | zero => intro fi; rfl
  | succ f ih =>
    intro fi
    have hlen : 0 < data.length := List.length_pos.mpr hd
    simp only [sendLoop, if_pos hlen, List.take_zero]
    simp only [List.length_nil, Nat.add_zero, Nat.sub_zero]
    rw [hflow fi]
    simp [decide_eq_true hlen, ih (fi + 1)]

/-- C2: with a negotiated window size of 0, the raw-paste `send` of any
non-empty payload never completes, for any amount of fuel, even though the
device answers every flow-control request with `0x01`: each loop iteration
slices an empty chunk, never advances `offset`, and consumes one flow
byte, forever.  (The spec requires window 0 to mean byte-at-a-time
sending that terminates.) -/
theorem sessionSend_window0_never_completes (st : SerialState) (text : List Nat)
    (flow : Nat → Option Nat) (ht : text ≠ []) (hflow : ∀ i, flow i = some 1) :
    ∀ fuel, sessionSend st true 0 text fuel flow = none := by
  intro fuel
  have hd : utf8Encode text ≠ [] := by
    cases text with
    | nil => exact absurd rfl ht
    | cons c cs => exact utf8Encode_ne_nil c cs
  simp [sessionSend, sendLoop_window0 st (utf8Encode text) flow hd hflow fuel 0]

theorem sessionSend_window0_never_completes_witness :
    sessionSend stActive true 0 [97] 50 (fun _ => some 1) = none :=
  sessionSend_window0_never_completes stActive [97] (fun _ => some 1)
    (by decide) (fun i => rfl) 50
theorem sendLoop_ascii (st : SerialState) (W : Nat) (data : List Nat)
    (flow : Nat → Option Nat) (h1 : st.connected = true) (h2 : st.writable = true)
    (hdata : ∀ b ∈ data, b < 128) (hflow : ∀ i, flow i = some 1) :
    ∀ fuel offset remaining flowIdx, remaining ≤ W →
      (offset < data.length → 1 ≤ remaining) →
      data.length - offset < fuel →
      ∃ ws, sendLoop st W data flow fuel offset remaining flowIdx = some ws
        ∧ ws.flatten = data.drop offset
        ∧ ∀ c ∈ ws, c.length ≤ W := by
  intro fuel
  induction fuel with
  | zero =>
    intro offset remaining fi hrW hinv hfuel
    omega
  | succ f ih =>
    intro offset remaining fi hrW hinv hfuel
    by_cases ho : offset < data.length
    case neg =>
      refine ⟨[], by simp [sendLoop, ho], ?_, by simp⟩
      simp [List.drop_eq_nil_of_le (by omega : data.length ≤ offset)]
    case pos =>
      have hr1 : 1 ≤ remaining := hinv ho
      have hW1 : 1 ≤ W := le_trans hr1 hrW
      have hchunk_ascii : ∀ b ∈ (data.drop offset).take remaining, b < 128 :=
        fun b hb => hdata b (List.mem_of_mem_drop (List.mem_of_mem_take hb))
      have hwr : writeRaw st (utf8Decode ((data.drop offset).take remaining)) =
          [(data.drop offset).take remaining] := by
        rw [utf8Decode_ascii hchunk_ascii]
        simp [writeRaw, h1, h2, utf8Encode_ascii hchunk_ascii]
      have hclen : ((data.drop offset).take remaining).length =
          min remaining (data.length - offset) := by
        simp
      have hc1 : 1 ≤ ((data.drop offset).take remaining).length := by
        rw [hclen]; omega
      have hcW : ((data.drop offset).take remaining).length ≤ W := by
        rw [hclen]; omega
      have hck : (data.drop offset).take remaining
          ++ data.drop (offset + ((data.drop offset).take remaining).length) =
          data.drop offset := by
        rw [← List.drop_drop]
        rcases le_or_lt remaining (data.length - offset) with hle | hlt
        · have hl : ((data.drop offset).take remaining).length = remaining := by
            rw [hclen]; omega
          rw [hl]
          exact List.take_append_drop _ _
        · have hcd2 : (data.drop offset).take remaining = data.drop offset :=
            List.take_of_length_le (by simp; omega)
          rw [hcd2, List.drop_length, List.append_nil]
      simp only [sendLoop, if_pos ho, hwr]
      split
      case isTrue hcond =>
        simp only [Bool.and_eq_true, decide_eq_true_eq] at hcond
        obtain ⟨hz, hlt⟩ := hcond
        rw [hflow fi]
        obtain ⟨ws, hs, hfl, hb⟩ := ih (offset + ((data.drop offset).take remaining).length)
          W (fi + 1) le_rfl (fun _ => hW1) (by omega)
        refine ⟨(data.drop offset).take remaining :: ws, ?_, ?_, ?_⟩
        · rw [hs]; rfl
        · simp only [List.flatten_cons, hfl, hck]
        · intro c hc
          rcases List.mem_cons.mp hc with h | h
          · rw [h]; exact hcW
          · exact hb c h
      case isFalse hcond =>
        rw [Bool.and_eq_true, not_and_or] at hcond
        simp only [decide_eq_true_eq] at hcond
        obtain ⟨ws, hs, hfl, hb⟩ := ih (offset + ((data.drop offset).take remaining).length)
          (remaining - ((data.drop offset).take remaining).length) fi (by omega)
          (by intro hlt2; rcases hcond with h | h
              · omega
              · omega)
          (by omega)
        refine ⟨(data.drop offset).take remaining :: ws, ?_, ?_, ?_⟩
        · rw [hs]; rfl
        · simp only [List.flatten_cons, hfl, hck]
        · intro c hc
          rcases List.mem_cons.mp hc with h | h
          · rw [h]; exact hcW
          · exact hb c h

/-- C1 (amended): for a raw-paste session over a connected writable port
with window size `W > 0`, a payload of ASCII characters (each code point
below 0x80, so no window boundary can split a multi-byte character), and
a device answering every flow-control request with `0x01`, `send` writes
exactly the payload's `N` UTF-8 bytes, in order, in chunks of at most `W`
bytes, followed by the single end-of-data write `[0x04]`. -/
theorem rawPasteSend_ascii_exact (st : SerialState) (text : List Nat) (W fuel : Nat)
    (flow : Nat → Option Nat) (h1 : st.connected = true) (h2 : st.writable = true)
    (hW : 0 < W) (hascii : ∀ c ∈ text, c < 128) (hflow : ∀ i, flow i = some 1)
    (hfuel : text.length < fuel) :
    ∃ ws, sessionSend st true W text fuel flow = some (ws ++ [[4]])
      ∧ ws.flatten = utf8Encode text
      ∧ ∀ c ∈ ws, c.length ≤ W := by
  have hdata : utf8Encode text = text := utf8Encode_ascii hascii
  obtain ⟨ws, hs, hfl, hb⟩ := sendLoop_ascii st W (utf8Encode text) flow h1 h2
    (by rw [hdata]; exact hascii) hflow fuel 0 W 0 le_rfl (fun _ => hW)
    (by rw [hdata]; omega)
  refine ⟨ws, ?_, by simpa using hfl, hb⟩
  have h4 : writeRaw st (strToCps "\x04") = [[4]] := by
    unfold writeRaw
    rw [h1, h2]
    rfl
  simp [sessionSend, hs, h4]

/-- C1 counterexample: payload `"é"` (UTF-8 `[0xC3, 0xA9]`, so `N = 2`)
with window size 1: each 1-byte chunk is an invalid UTF-8 fragment, the
decode-then-re-encode in the send path turns each into the replacement
sequence `[0xEF, 0xBF, 0xBD]`, and the Transport sees 6 payload bytes in
3-byte chunks — not the 2 payload bytes in chunks of at most 1. -/
theorem rawPasteSend_splitChar_cex :
    sessionSend stActive true 1 [0xE9] 5 (fun _ => some 1) =
      some [[0xEF, 0xBF, 0xBD], [0xEF, 0xBF, 0xBD], [4]]
    ∧ ¬ ([[0xEF, 0xBF, 0xBD], [0xEF, 0xBF, 0xBD]].flatten = utf8Encode [0xE9]
        ∧ ∀ c ∈ [[0xEF, 0xBF, 0xBD], [0xEF, 0xBF, 0xBD]], List.length c ≤ 1) :=
  ⟨rfl, by decide⟩

theorem rawPasteSend_ascii_exact_witness :
    ∃ ws, sessionSend stActive true 2 [104, 101, 108, 108, 111] 6 (fun _ => some 1) =
        some (ws ++ [[4]])
      ∧ ws.flatten = utf8Encode [104, 101, 108, 108, 111]
      ∧ ∀ c ∈ ws, c.length ≤ 2 :=
  rawPasteSend_ascii_exact stActive [104, 101, 108, 108, 111] 2 6 (fun _ => some 1)
    rfl rfl (by decide) (by decide) (fun i => rfl) (by decide)
